import Mathlib

/-!
Verification development for the asynchronous job-polling and result-link
de-duplication logic of the Harmony repository.

The embedded code comes from two places:

* `docs/notebook_helpers/__init__.py`: `get_data_urls`, `show_async` (with its
  inner `show_response`), and `show_async_condensed` (with its inner
  `show_response_condensed`).  The polling loop repeatedly re-fetches a job
  status document, and whenever `progress` or `status` changed it extracts the
  data links that appeared since the last extraction and displays those whose
  href starts with "http".  I/O (printing, `sleep`, plotting via `show`,
  `check_status`, `check_stac`) is outside the polling logic proper: the
  observable effect modelled here is the ordered list of hrefs passed to
  `show(get(link), ...)` ("dispatched" links) together with the returned
  response.

* `workload/harmony/common.py`: `BaseHarmonyUser.wait_for_job_completion`,
  which polls a job-status endpoint until the status string is terminal,
  wrapping the loop in an outer try/except that fires a Locust request event
  (with or without an exception) and then returns the status string.

Documents are embedded as records of the fields the polling code reads
(`status`, `progress`, `links`); each fetch performed by a loop is supplied as
one element of an explicit list (the "fetch stream"), which also serves as
fuel: a loop that would keep polling past the end of the stream yields a
distinguished out-of-fuel outcome.
-/

namespace Harmony

/-- One entry of a job status document's `links` array: `href` plus an
optional `rel` relation (absent `rel` defaults to `"data"` in the code). -/
structure LinkEntry where
  href : String
  rel : Option String
deriving DecidableEq

/-- The fields of a job status document read by the polling code:
`body['status']`, `body['progress']`, `body['links']`. -/
structure JobStatusDocument where
  status : String
  progress : Int
  links : List LinkEntry
deriving DecidableEq

/-- The filter `link.get('rel', 'data') == 'data'` from `get_data_urls`. -/
def isDataLink (l : LinkEntry) : Bool := l.rel.getD "data" == "data"

/-- `get_data_urls` (notebook helpers, lines 195-204):
`[link['href'] for link in response.json()['links'] if link.get('rel', 'data') == 'data']`. -/
def get_data_urls (links : List LinkEntry) : List String :=
  (links.filter isDataLink).map LinkEntry.href

/-- Python's `s.startswith(pre)`, embedded as a prefix test on the character
sequences of the two strings. -/
def strStartsWith (s pre : String) : Bool := pre.data.isPrefixOf s.data

/-- The guard `link.startswith('http')` used before displaying a link. -/
def isHttpUrl (s : String) : Bool := strStartsWith s "http"

/-- The terminal-status list `['successful', 'failed', 'canceled']` of the
polling loops' `while` conditions. -/
def terminal_statuses : List String := ["successful", "failed", "canceled"]

/-- `body['status'] in ['successful', 'failed', 'canceled']` (the negation of
the `while` condition). -/
def isTerminal (s : String) : Bool := terminal_statuses.contains s

/-- Inner `show_response` of `show_async` (lines 220-228).  It extracts the
data urls, takes the slice `links[link_count:]`, displays the entries that
start with "http", and returns `len(links)` of the filtered list.  Result:
(hrefs dispatched to `show(get(link))`, returned link count). -/
def show_response (doc : JobStatusDocument) (link_count : Nat) : List String × Nat :=
  ((((get_data_urls doc.links).drop link_count).filter isHttpUrl),
    (get_data_urls doc.links).length)

/-- The loop state of `show_async`: the most recently parsed `body` and the
running `displayed_link_count`. -/
structure LoopState where
  body : JobStatusDocument
  count : Nat
deriving DecidableEq

/-- One iteration of `show_async`'s `while` body after the re-fetch: compare
the saved `progress`/`status` of the previous body against the fresh one and,
only when one of them changed, run `show_response` (updating the count).
Result: (next loop state, hrefs dispatched this iteration). -/
def show_async_step (st : LoopState) (fetched : JobStatusDocument) :
    LoopState × List String :=
  if st.body.progress ≠ fetched.progress ∨ st.body.status ≠ fetched.status then
    (⟨fetched, (show_response fetched st.count).2⟩, (show_response fetched st.count).1)
  else
    (⟨fetched, st.count⟩, [])

/-- Outcome of a `show_async` run: normal return of the final response
(`ok`), the `assert(body['status'] not in ['failed'])` failing (`jobFailed`),
or the fetch stream running out while the job is still non-terminal
(`fuelOut`).  Each outcome carries the hrefs dispatched so far, in order. -/
inductive PollOutcome where
  | ok (final : JobStatusDocument) (dispatched : List String)
  | jobFailed (final : JobStatusDocument) (dispatched : List String)
  | fuelOut (dispatched : List String)
deriving DecidableEq

/-- Prepend links dispatched earlier to an outcome's dispatched list. -/
def PollOutcome.withDisp (l : List String) : PollOutcome → PollOutcome
  | .ok f d => .ok f (l ++ d)
  | .jobFailed f d => .jobFailed f (l ++ d)
  | .fuelOut d => .fuelOut (l ++ d)

/-- The final document of an outcome, when the loop exited. -/
def PollOutcome.finalDoc : PollOutcome → Option JobStatusDocument
  | .ok f _ => some f
  | .jobFailed f _ => some f
  | .fuelOut _ => none

/-- The dispatched hrefs of an outcome. -/
def PollOutcome.dispatched : PollOutcome → List String
  | .ok _ d => d
  | .jobFailed _ d => d
  | .fuelOut d => d

/-- The code after `show_async`'s loop: `assert(body['status'] not in
['failed'])`, then (out-of-scope `check_stac`, printing) `return response`. -/
def exitOutcome (body : JobStatusDocument) : PollOutcome :=
  if (["failed"] : List String).contains body.status then
    .jobFailed body []
  else
    .ok body []

/-- The `while body['status'] not in ['successful', 'failed', 'canceled']`
loop of `show_async` (lines 235-246), driven by the explicit fetch stream. -/
def show_async_loop : List JobStatusDocument → LoopState → PollOutcome
  | [], st =>
    if isTerminal st.body.status then exitOutcome st.body
    else .fuelOut []
  | d :: rest, st =>
    if isTerminal st.body.status then exitOutcome st.body
    else
      ((show_async_loop rest (show_async_step st d).1).withDisp (show_async_step st d).2)

/-- `show_async` (lines 206-251): extract and display the initial document's
links with `displayed_link_count = 0`, then poll until terminal. -/
def show_async (initial : JobStatusDocument) (fetches : List JobStatusDocument) :
    PollOutcome :=
  (show_async_loop fetches ⟨initial, (show_response initial 0).2⟩).withDisp
    (show_response initial 0).1

/-- Inner `show_response_condensed` of `show_async_condensed` (lines 273-279):
identical slice/filter/len logic to `show_response`. -/
def show_response_condensed (doc : JobStatusDocument) (link_count : Nat) :
    List String × Nat :=
  ((((get_data_urls doc.links).drop link_count).filter isHttpUrl),
    (get_data_urls doc.links).length)

/-- One iteration of `show_async_condensed`'s loop body after the re-fetch
(lines 289-297): on a `progress`/`status` change, extract and display only
when `show_results` is set. -/
def show_async_condensed_step (show_results : Bool) (st : LoopState)
    (fetched : JobStatusDocument) : LoopState × List String :=
  if st.body.progress ≠ fetched.progress ∨ st.body.status ≠ fetched.status then
    if show_results then
      (⟨fetched, (show_response_condensed fetched st.count).2⟩,
        (show_response_condensed fetched st.count).1)
    else (⟨fetched, st.count⟩, [])
  else (⟨fetched, st.count⟩, [])

/-- Outcome of the try-block body in `wait_for_job_completion`
(`workload/harmony/common.py`): either the body ran to completion
(loop exited, the assert passed, the success event fired) or an exception
escaped the loop/assert carrying the current `status` value. -/
inductive TryOutcome where
  | normal (status : String)
  | raised (status : String)
deriving DecidableEq

/-- The exit path of `wait_for_job_completion`'s loop: `assert(status not in
['failed', 'canceled'])` raises AssertionError for those statuses, otherwise
the success event fires. -/
def waitExit (status : String) : TryOutcome :=
  if (["failed", "canceled"] : List String).contains status then
    .raised status
  else
    .normal status

/-- The outer try-block body of `wait_for_job_completion` (lines 49-65):
`while status not in terminal: sleep(1); try: refetch and read status;
except: logging.warn(..., response.body)` followed by the assert.  Each fetch
of the stream is `some s` (the re-fetch succeeded and yielded status `s`) or
`none` (the fetch or its JSON parse raised).  In the `none` case the `except`
handler evaluates `response.body`; `requests.Response` has no `body`
attribute, so the handler itself raises `AttributeError`, which escapes the
`while` loop with `status` still holding its previous value.  An exhausted
stream on a non-terminal status means the loop would still be polling. -/
def waitBody : List (Option String) → String → Option TryOutcome
  | [], status =>
    if isTerminal status then some (waitExit status) else none
  | f :: rest, status =>
    if isTerminal status then some (waitExit status)
    else
      match f with
      | none => some (TryOutcome.raised status)
      | some s => waitBody rest s

/-- Result of `wait_for_job_completion`: the returned status string, and
whether the Locust request event it fired carried an exception. -/
structure WaitResult where
  returnedStatus : String
  eventException : Bool
deriving DecidableEq

/-- `wait_for_job_completion` (lines 38-75): run the try-block body; any
exception is caught by the outer `except Exception`, which fires the request
event with that exception; either way `return status` runs. -/
def wait_for_job_completion (fetches : List (Option String)) (initialStatus : String) :
    Option WaitResult :=
  match waitBody fetches initialStatus with
  | none => none
  | some (.normal st) => some ⟨st, false⟩
  | some (.raised st) => some ⟨st, true⟩

/-- The spec's server-side assumption for one job: across successive fetched
documents, `links` only grows by appending (each document's links array is a
prefix of the next one's). -/
def linksChain : List LinkEntry → List JobStatusDocument → Prop
  | _, [] => True
  | prev, d :: rest => prev <+: d.links ∧ linksChain d.links rest

example : isHttpUrl "http://x/a" = true := by decide
example : isHttpUrl "s3://bucket/a" = false := by decide
example : isTerminal "running" = false := by decide
example : isTerminal "canceled" = true := by decide
example :
    show_async ⟨"successful", 100, [⟨"http://x/a", some "data"⟩, ⟨"s3://y", none⟩]⟩ [] =
      PollOutcome.ok ⟨"successful", 100, [⟨"http://x/a", some "data"⟩, ⟨"s3://y", none⟩]⟩
        ["http://x/a"] := by decide
example :
    wait_for_job_completion [none, some "successful"] "running" =
      some ⟨"running", true⟩ := by decide

/-! ## Basic rewriting lemmas -/

theorem withDisp_finalDoc (l : List String) (o : PollOutcome) :
    (o.withDisp l).finalDoc = o.finalDoc := by
  cases o <;> rfl

theorem withDisp_dispatched (l : List String) (o : PollOutcome) :
    (o.withDisp l).dispatched = l ++ o.dispatched := by
  cases o <;> rfl

theorem withDisp_nil (o : PollOutcome) : o.withDisp [] = o := by
  cases o <;> simp [PollOutcome.withDisp]

theorem exitOutcome_finalDoc (b : JobStatusDocument) :
    (exitOutcome b).finalDoc = some b := by
  unfold exitOutcome
  split <;> rfl

theorem exitOutcome_dispatched (b : JobStatusDocument) :
    (exitOutcome b).dispatched = [] := by
  unfold exitOutcome
  split <;> rfl

theorem show_async_step_changed (st : LoopState) (d : JobStatusDocument)
    (h : st.body.progress ≠ d.progress ∨ st.body.status ≠ d.status) :
    show_async_step st d =
      (⟨d, (get_data_urls d.links).length⟩,
        ((get_data_urls d.links).drop st.count).filter isHttpUrl) := by
  unfold show_async_step
  rw [if_pos h]
  rfl

theorem show_async_step_unchanged (st : LoopState) (d : JobStatusDocument)
    (hp : st.body.progress = d.progress) (hs : st.body.status = d.status) :
    show_async_step st d = (⟨d, st.count⟩, []) := by
  unfold show_async_step
  rw [if_neg]
  push_neg
  exact ⟨hp, hs⟩

theorem show_async_loop_nil (st : LoopState) :
    show_async_loop [] st =
      if isTerminal st.body.status then exitOutcome st.body
      else PollOutcome.fuelOut [] := rfl

theorem show_async_loop_cons (d : JobStatusDocument) (rest : List JobStatusDocument)
    (st : LoopState) :
    show_async_loop (d :: rest) st =
      if isTerminal st.body.status then exitOutcome st.body
      else
        ((show_async_loop rest (show_async_step st d).1).withDisp
          (show_async_step st d).2) := rfl

theorem show_async_loop_cons_changed (st : LoopState) (d : JobStatusDocument)
    (rest : List JobStatusDocument) (ht : ¬ isTerminal st.body.status = true)
    (h : st.body.progress ≠ d.progress ∨ st.body.status ≠ d.status) :
    show_async_loop (d :: rest) st =
      ((show_async_loop rest ⟨d, (get_data_urls d.links).length⟩).withDisp
        (((get_data_urls d.links).drop st.count).filter isHttpUrl)) := by
  rw [show_async_loop_cons, if_neg ht, show_async_step_changed st d h]

theorem show_async_loop_cons_unchanged (st : LoopState) (d : JobStatusDocument)
    (rest : List JobStatusDocument) (ht : ¬ isTerminal st.body.status = true)
    (hp : st.body.progress = d.progress) (hs : st.body.status = d.status) :
    show_async_loop (d :: rest) st = show_async_loop rest ⟨d, st.count⟩ := by
  rw [show_async_loop_cons, if_neg ht, show_async_step_unchanged st d hp hs]
  exact withDisp_nil _

/-! ## List-level helper lemmas -/

theorem get_data_urls_append (l₁ l₂ : List LinkEntry) :
    get_data_urls (l₁ ++ l₂) = get_data_urls l₁ ++ get_data_urls l₂ := by
  simp [get_data_urls, List.filter_append]

theorem get_data_urls_mono (l₁ l₂ : List LinkEntry) (h : l₁ <+: l₂) :
    get_data_urls l₁ <+: get_data_urls l₂ := by
  obtain ⟨t, rfl⟩ := h
  exact ⟨get_data_urls t, (get_data_urls_append l₁ t).symm⟩

theorem get_data_urls_length_le (l : List LinkEntry) :
    (get_data_urls l).length ≤ l.length := by
  simp only [get_data_urls, List.length_map]
  exact List.length_filter_le _ _

theorem drop_split_along {α : Type} (l₁ l₂ : List α) (n : Nat) (h : l₁ <+: l₂)
    (hn : n ≤ l₁.length) :
    l₂.drop n = l₁.drop n ++ l₂.drop l₁.length := by
  obtain ⟨t, rfl⟩ := h
  rw [List.drop_append_of_le_length hn, List.drop_left]

theorem prefix_filter_split {α : Type} (p : α → Bool) (l₁ l₂ : List α)
    (h : l₁ <+: l₂) :
    l₂.filter p = l₁.filter p ++ (l₂.drop l₁.length).filter p := by
  obtain ⟨t, rfl⟩ := h
  rw [List.drop_left, List.filter_append]

/-! ## Run-level lemmas about the `show_async` loop -/

theorem show_async_loop_final_extends :
    ∀ (fetches : List JobStatusDocument) (st : LoopState) (f : JobStatusDocument),
      linksChain st.body.links fetches →
      (show_async_loop fetches st).finalDoc = some f →
      st.body.links <+: f.links := by
  intro fetches
  induction fetches with
  | nil =>
    intro st f _ hf
    rw [show_async_loop_nil] at hf
    by_cases ht : isTerminal st.body.status = true
    · rw [if_pos ht, exitOutcome_finalDoc] at hf
      injection hf with h
      subst h
      exact List.prefix_refl _
    · rw [if_neg ht] at hf
      exact absurd hf (by simp [PollOutcome.finalDoc])
  | cons d rest ih =>
    intro st f hc hf
    obtain ⟨hc1, hc2⟩ := hc
    by_cases ht : isTerminal st.body.status = true
    · rw [show_async_loop_cons, if_pos ht, exitOutcome_finalDoc] at hf
      injection hf with h
      subst h
      exact List.prefix_refl _
    · by_cases hch : st.body.progress ≠ d.progress ∨ st.body.status ≠ d.status
      · rw [show_async_loop_cons_changed st d rest ht hch, withDisp_finalDoc] at hf
        exact hc1.trans (ih ⟨d, (get_data_urls d.links).length⟩ f hc2 hf)
      · push_neg at hch
        rw [show_async_loop_cons_unchanged st d rest ht hch.1 hch.2] at hf
        exact hc1.trans (ih ⟨d, st.count⟩ f hc2 hf)

theorem show_async_loop_dispatch :
    ∀ (fetches : List JobStatusDocument) (st : LoopState) (f : JobStatusDocument),
      linksChain st.body.links fetches →
      st.count ≤ (get_data_urls st.body.links).length →
      (isTerminal st.body.status = true →
        st.count = (get_data_urls st.body.links).length) →
      (show_async_loop fetches st).finalDoc = some f →
      (show_async_loop fetches st).dispatched =
        ((get_data_urls f.links).drop st.count).filter isHttpUrl := by
  intro fetches
  induction fetches with
  | nil =>
    intro st f _ _ hterm hf
    rw [show_async_loop_nil] at hf ⊢
    by_cases ht : isTerminal st.body.status = true
    · rw [if_pos ht] at hf ⊢
      rw [exitOutcome_finalDoc] at hf
      injection hf with h
      subst h
      rw [exitOutcome_dispatched, hterm ht, List.drop_length]
      rfl
    · rw [if_neg ht] at hf
      exact absurd hf (by simp [PollOutcome.finalDoc])
  | cons d rest ih =>
    intro st f hc hle hterm hf
    obtain ⟨hc1, hc2⟩ := hc
    by_cases ht : isTerminal st.body.status = true
    · rw [show_async_loop_cons, if_pos ht] at hf ⊢
      rw [exitOutcome_finalDoc] at hf
      injection hf with h
      subst h
      rw [exitOutcome_dispatched, hterm ht, List.drop_length]
      rfl
    · by_cases hch : st.body.progress ≠ d.progress ∨ st.body.status ≠ d.status
      · rw [show_async_loop_cons_changed st d rest ht hch] at hf ⊢
        rw [withDisp_finalDoc] at hf
        rw [withDisp_dispatched]
        have hext : d.links <+: f.links :=
          show_async_loop_final_extends rest ⟨d, (get_data_urls d.links).length⟩ f hc2 hf
        have ihres := ih ⟨d, (get_data_urls d.links).length⟩ f hc2 (Nat.le_refl _)
          (fun _ => rfl) hf
        rw [ihres]
        have hcnt : st.count ≤ (get_data_urls d.links).length :=
          le_trans hle (get_data_urls_mono _ _ hc1).length_le
        rw [drop_split_along (get_data_urls d.links) (get_data_urls f.links) st.count
          (get_data_urls_mono _ _ hext) hcnt, List.filter_append]
      · push_neg at hch
        rw [show_async_loop_cons_unchanged st d rest ht hch.1 hch.2] at hf ⊢
        have hle2 : st.count ≤ (get_data_urls d.links).length :=
          le_trans hle (get_data_urls_mono _ _ hc1).length_le
        have hterm2 : isTerminal d.status = true →
            st.count = (get_data_urls d.links).length := by
          intro h2
          rw [← hch.2] at h2
          exact absurd h2 ht
        exact ih ⟨d, st.count⟩ f hc2 hle2 hterm2 hf

theorem show_async_dispatch_eq (init f : JobStatusDocument)
    (fetches : List JobStatusDocument) (hc : linksChain init.links fetches)
    (hf : (show_async init fetches).finalDoc = some f) :
    (show_async init fetches).dispatched = (get_data_urls f.links).filter isHttpUrl := by
  unfold show_async at hf ⊢
  rw [withDisp_finalDoc] at hf
  rw [withDisp_dispatched]
  have hpre : init.links <+: f.links :=
    show_async_loop_final_extends fetches ⟨init, (show_response init 0).2⟩ f hc hf
  have hB := show_async_loop_dispatch fetches ⟨init, (show_response init 0).2⟩ f hc
    (Nat.le_refl _) (fun _ => rfl) hf
  rw [hB]
  simp only [show_response, List.drop_zero]
  exact (prefix_filter_split isHttpUrl _ _ (get_data_urls_mono _ _ hpre)).symm

/-! ## Outcome classification for `show_async` -/

theorem withDisp_ok_inv (l : List String) (o : PollOutcome) (f : JobStatusDocument)
    (dd : List String) (h : o.withDisp l = PollOutcome.ok f dd) :
    ∃ d₀, o = PollOutcome.ok f d₀ := by
  cases o with
  | ok f₀ d₀ =>
    simp only [PollOutcome.withDisp] at h
    injection h with h1 h2
    exact ⟨d₀, by rw [h1]⟩
  | jobFailed f₀ d₀ =>
    simp only [PollOutcome.withDisp] at h
    exact PollOutcome.noConfusion h
  | fuelOut d₀ =>
    simp only [PollOutcome.withDisp] at h
    exact PollOutcome.noConfusion h

theorem withDisp_jobFailed_inv (l : List String) (o : PollOutcome)
    (f : JobStatusDocument) (dd : List String)
    (h : o.withDisp l = PollOutcome.jobFailed f dd) :
    ∃ d₀, o = PollOutcome.jobFailed f d₀ := by
  cases o with
  | ok f₀ d₀ =>
    simp only [PollOutcome.withDisp] at h
    exact PollOutcome.noConfusion h
  | jobFailed f₀ d₀ =>
    simp only [PollOutcome.withDisp] at h
    injection h with h1 h2
    exact ⟨d₀, by rw [h1]⟩
  | fuelOut d₀ =>
    simp only [PollOutcome.withDisp] at h
    exact PollOutcome.noConfusion h

theorem exitOutcome_ok_inv (b f : JobStatusDocument) (dd : List String)
    (h : exitOutcome b = PollOutcome.ok f dd) : f = b ∧ b.status ≠ "failed" := by
  unfold exitOutcome at h
  split at h
  next => exact PollOutcome.noConfusion h
  next hcond =>
    injection h with h1 h2
    subst h1
    simp at hcond
    exact ⟨rfl, hcond⟩

theorem exitOutcome_jobFailed_inv (b f : JobStatusDocument) (dd : List String)
    (h : exitOutcome b = PollOutcome.jobFailed f dd) : f = b ∧ b.status = "failed" := by
  unfold exitOutcome at h
  split at h
  next hcond =>
    injection h with h1 h2
    subst h1
    simp at hcond
    exact ⟨rfl, hcond⟩
  next => exact PollOutcome.noConfusion h

theorem show_async_loop_ok_inv :
    ∀ (fetches : List JobStatusDocument) (st : LoopState) (f : JobStatusDocument)
      (dd : List String),
      show_async_loop fetches st = PollOutcome.ok f dd →
      isTerminal f.status = true ∧ f.status ≠ "failed" := by
  intro fetches
  induction fetches with
  | nil =>
    intro st f dd h
    rw [show_async_loop_nil] at h
    by_cases ht : isTerminal st.body.status = true
    · rw [if_pos ht] at h
      obtain ⟨h1, h2⟩ := exitOutcome_ok_inv st.body f dd h
      subst h1
      exact ⟨ht, h2⟩
    · rw [if_neg ht] at h
      exact PollOutcome.noConfusion h
  | cons d rest ih =>
    intro st f dd h
    rw [show_async_loop_cons] at h
    by_cases ht : isTerminal st.body.status = true
    · rw [if_pos ht] at h
      obtain ⟨h1, h2⟩ := exitOutcome_ok_inv st.body f dd h
      subst h1
      exact ⟨ht, h2⟩
    · rw [if_neg ht] at h
      obtain ⟨d₀, h₀⟩ := withDisp_ok_inv _ _ _ _ h
      exact ih _ f d₀ h₀

theorem show_async_loop_jobFailed_inv :
    ∀ (fetches : List JobStatusDocument) (st : LoopState) (f : JobStatusDocument)
      (dd : List String),
      show_async_loop fetches st = PollOutcome.jobFailed f dd →
      f.status = "failed" := by
  intro fetches
  induction fetches with
  | nil =>
    intro st f dd h
    rw [show_async_loop_nil] at h
    by_cases ht : isTerminal st.body.status = true
    · rw [if_pos ht] at h
      obtain ⟨h1, h2⟩ := exitOutcome_jobFailed_inv st.body f dd h
      subst h1
      exact h2
    · rw [if_neg ht] at h
      exact PollOutcome.noConfusion h
  | cons d rest ih =>
    intro st f dd h
    rw [show_async_loop_cons] at h
    by_cases ht : isTerminal st.body.status = true
    · rw [if_pos ht] at h
      obtain ⟨h1, h2⟩ := exitOutcome_jobFailed_inv st.body f dd h
      subst h1
      exact h2
    · rw [if_neg ht] at h
      obtain ⟨d₀, h₀⟩ := withDisp_jobFailed_inv _ _ _ _ h
      exact ih _ f d₀ h₀

theorem show_async_ok_inv (init : JobStatusDocument) (fetches : List JobStatusDocument)
    (f : JobStatusDocument) (dd : List String)
    (h : show_async init fetches = PollOutcome.ok f dd) :
    isTerminal f.status = true ∧ f.status ≠ "failed" := by
  unfold show_async at h
  obtain ⟨d₀, h₀⟩ := withDisp_ok_inv _ _ _ _ h
  exact show_async_loop_ok_inv _ _ _ _ h₀

theorem show_async_jobFailed_inv (init : JobStatusDocument)
    (fetches : List JobStatusDocument) (f : JobStatusDocument) (dd : List String)
    (h : show_async init fetches = PollOutcome.jobFailed f dd) :
    f.status = "failed" := by
  unfold show_async at h
  obtain ⟨d₀, h₀⟩ := withDisp_jobFailed_inv _ _ _ _ h
  exact show_async_loop_jobFailed_inv _ _ _ _ h₀

/-! ## Lemmas about the condensed variant's step -/

theorem show_async_condensed_step_changed_shown (st : LoopState) (d : JobStatusDocument)
    (h : st.body.progress ≠ d.progress ∨ st.body.status ≠ d.status) :
    show_async_condensed_step true st d =
      (⟨d, (get_data_urls d.links).length⟩,
        ((get_data_urls d.links).drop st.count).filter isHttpUrl) := by
  unfold show_async_condensed_step
  rw [if_pos h, if_pos rfl]
  rfl

theorem show_async_condensed_step_hidden (st : LoopState) (d : JobStatusDocument) :
    show_async_condensed_step false st d = (⟨d, st.count⟩, []) := by
  unfold show_async_condensed_step
  split <;> simp

theorem show_async_condensed_step_unchanged (sr : Bool) (st : LoopState)
    (d : JobStatusDocument) (hp : st.body.progress = d.progress)
    (hs : st.body.status = d.status) :
    show_async_condensed_step sr st d = (⟨d, st.count⟩, []) := by
  unfold show_async_condensed_step
  rw [if_neg]
  push_neg
  exact ⟨hp, hs⟩

/-- The count invariant is carried across an append-only links extension. -/
theorem count_inv_preserved (c : Nat) (prev next : List LinkEntry)
    (hinv : c ≤ (get_data_urls prev).length) (hpre : prev <+: next) :
    c ≤ (get_data_urls next).length :=
  le_trans hinv (get_data_urls_mono _ _ hpre).length_le

/-! ## Lemmas about `wait_for_job_completion` -/

theorem waitBody_terminal (fetches : List (Option String)) (s : String)
    (ht : isTerminal s = true) : waitBody fetches s = some (waitExit s) := by
  cases fetches <;> simp [waitBody, ht]

theorem wait_terminal (fetches : List (Option String)) (s : String)
    (ht : isTerminal s = true) :
    wait_for_job_completion fetches s =
      some ⟨s, (["failed", "canceled"] : List String).contains s⟩ := by
  unfold wait_for_job_completion
  rw [waitBody_terminal fetches s ht]
  unfold waitExit
  by_cases hfc : (["failed", "canceled"] : List String).contains s = true
  · rw [if_pos hfc, hfc]
  · rw [if_neg hfc]
    rw [Bool.not_eq_true] at hfc
    rw [hfc]

theorem waitExit_raised_inv (s st : String) (h : waitExit s = TryOutcome.raised st) :
    st = s ∧ (["failed", "canceled"] : List String).contains s = true := by
  unfold waitExit at h
  split at h
  next hc =>
    injection h with h1
    exact ⟨h1.symm, hc⟩
  next hc => exact TryOutcome.noConfusion h

theorem waitExit_normal_inv (s st : String) (h : waitExit s = TryOutcome.normal st) :
    st = s ∧ (["failed", "canceled"] : List String).contains s = false := by
  unfold waitExit at h
  split at h
  next hc => exact TryOutcome.noConfusion h
  next hc =>
    injection h with h1
    exact ⟨h1.symm, by rw [Bool.not_eq_true] at hc; exact hc⟩

theorem waitBody_normal_inv :
    ∀ (fetches : List (Option String)) (s st : String),
      waitBody fetches s = some (TryOutcome.normal st) →
      isTerminal st = true ∧
        (["failed", "canceled"] : List String).contains st = false := by
  intro fetches
  induction fetches with
  | nil =>
    intro s st h
    unfold waitBody at h
    by_cases ht : isTerminal s = true
    · rw [if_pos ht] at h
      injection h with h1
      obtain ⟨h2, h3⟩ := waitExit_normal_inv s st h1
      subst h2
      exact ⟨ht, h3⟩
    · rw [if_neg ht] at h
      exact Option.noConfusion h
  | cons fo rest ih =>
    intro s st h
    unfold waitBody at h
    by_cases ht : isTerminal s = true
    · rw [if_pos ht] at h
      injection h with h1
      obtain ⟨h2, h3⟩ := waitExit_normal_inv s st h1
      subst h2
      exact ⟨ht, h3⟩
    · rw [if_neg ht] at h
      cases fo with
      | none =>
        injection h with h1
        exact TryOutcome.noConfusion h1
      | some s2 => exact ih s2 st h

theorem waitBody_raised_inv :
    ∀ (fetches : List (Option String)) (s st : String),
      waitBody fetches s = some (TryOutcome.raised st) →
      (isTerminal st = true ∧
          (["failed", "canceled"] : List String).contains st = true) ∨
        isTerminal st = false := by
  intro fetches
  induction fetches with
  | nil =>
    intro s st h
    unfold waitBody at h
    by_cases ht : isTerminal s = true
    · rw [if_pos ht] at h
      injection h with h1
      obtain ⟨h2, h3⟩ := waitExit_raised_inv s st h1
      subst h2
      exact Or.inl ⟨ht, h3⟩
    · rw [if_neg ht] at h
      exact Option.noConfusion h
  | cons fo rest ih =>
    intro s st h
    unfold waitBody at h
    by_cases ht : isTerminal s = true
    · rw [if_pos ht] at h
      injection h with h1
      obtain ⟨h2, h3⟩ := waitExit_raised_inv s st h1
      subst h2
      exact Or.inl ⟨ht, h3⟩
    · rw [if_neg ht] at h
      cases fo with
      | none =>
        injection h with h1
        injection h1 with h2
        subst h2
        rw [Bool.not_eq_true] at ht
        exact Or.inr ht
      | some s2 => exact ih s2 st h

/-- A list strictly shrinks under `filter` when some member fails the
predicate. -/
theorem length_filter_lt_of_mem_not {α : Type} (l : List α) (p : α → Bool) (x : α)
    (hx : x ∈ l) (hpx : ¬ p x = true) : (l.filter p).length < l.length := by
  induction l with
  | nil => cases hx
  | cons a as ih =>
    rw [List.filter_cons]
    rcases List.mem_cons.mp hx with rfl | hmem
    · rw [if_neg hpx]
      simp only [List.length_cons]
      exact Nat.lt_succ_of_le (List.length_filter_le p as)
    · by_cases hpa : p a = true
      · rw [if_pos hpa]
        simp only [List.length_cons]
        exact Nat.succ_lt_succ (ih hmem)
      · rw [if_neg hpa]
        simp only [List.length_cons]
        exact Nat.lt_succ_of_lt (ih hmem)

/-! ## Claims -/

/-- Claim C1 counterexample: for a document whose `links` array mixes a data
link and a non-data link, the count returned by `show_response` (the value
stored into `displayed_link_count`) is the number of `rel == "data"` links
(here 1), not the length of the full `links` array (here 2).  The claim's
"offset equals the total number of links, not the number of data links" is
therefore false on the code. -/
theorem c1_counterexample :
    (show_response ⟨"successful", 100,
        [⟨"http://x/a", some "data"⟩, ⟨"http://x/stac", some "stac-catalog-json"⟩]⟩ 0).2 = 1 ∧
      (⟨"successful", 100,
        [⟨"http://x/a", some "data"⟩, ⟨"http://x/stac", some "stac-catalog-json"⟩]⟩ :
          JobStatusDocument).links.length = 2 ∧
      (show_response ⟨"successful", 100,
        [⟨"http://x/a", some "data"⟩, ⟨"http://x/stac", some "stac-catalog-json"⟩]⟩ 0).2 ≠
        (⟨"successful", 100,
          [⟨"http://x/a", some "data"⟩, ⟨"http://x/stac", some "stac-catalog-json"⟩]⟩ :
            JobStatusDocument).links.length := by
  decide

/-- Claim C1, amended: after each extraction the saved link count is set to
the length of the FILTERED data-links list (entries with `rel == "data"` or
`rel` absent) of the current document, and the new-links slice is taken by
index into that filtered list; for a document whose `links` mixes data and
non-data entries, the saved count is strictly less than the total number of
links. -/
theorem c1_filtered_offset (doc : JobStatusDocument) (c : Nat) :
    (show_response doc c).2 = (doc.links.filter isDataLink).length ∧
      (show_response doc c).1 = ((get_data_urls doc.links).drop c).filter isHttpUrl ∧
      ((∃ l ∈ doc.links, isDataLink l = false) →
        (show_response doc c).2 < doc.links.length) := by
  refine ⟨by simp [show_response, get_data_urls], rfl, ?_⟩
  rintro ⟨l, hl, hnd⟩
  simp only [show_response, get_data_urls, List.length_map]
  exact length_filter_lt_of_mem_not doc.links isDataLink l hl (by rw [hnd]; exact Bool.false_ne_true)

/-- Claim C1 witness: on a mixed document the saved count is strictly below
the raw links length. -/
theorem c1_filtered_offset_witness :
    (show_response ⟨"running", 0, [⟨"s3://a", none⟩, ⟨"http://b", some "self"⟩]⟩ 0).2 <
      (⟨"running", 0, [⟨"s3://a", none⟩, ⟨"http://b", some "self"⟩]⟩ :
        JobStatusDocument).links.length :=
  (c1_filtered_offset ⟨"running", 0, [⟨"s3://a", none⟩, ⟨"http://b", some "self"⟩]⟩ 0).2.2
    ⟨⟨"http://b", some "self"⟩, by decide, by decide⟩

/-- Claim C2 counterexample: a poll reaching the terminal status `"canceled"`
does NOT signal a failure condition in `show_async` — the final assertion only
checks `['failed']`, so the call returns the response normally. -/
theorem c2_counterexample :
    show_async ⟨"canceled", 0, []⟩ [] =
      PollOutcome.ok ⟨"canceled", 0, []⟩ [] := by
  decide

/-- Claim C2, amended: `show_async` signals the assertion failure exactly when
the final status is `"failed"` (a `"canceled"` final status returns normally),
and `wait_for_job_completion` asserts on both `"failed"` and `"canceled"` but
catches the exception internally and returns the status normally, flagging the
fired event with the exception. -/
theorem c2_failed_only_assert (init f : JobStatusDocument)
    (fetches : List JobStatusDocument) (dd : List String)
    (fs : List (Option String)) (s : String) :
    (show_async init fetches = PollOutcome.ok f dd → f.status ≠ "failed") ∧
      (show_async init fetches = PollOutcome.jobFailed f dd → f.status = "failed") ∧
      (isTerminal s = true →
        wait_for_job_completion fs s =
          some ⟨s, (["failed", "canceled"] : List String).contains s⟩) := by
  exact ⟨fun h => (show_async_ok_inv _ _ _ _ h).2,
    fun h => show_async_jobFailed_inv _ _ _ _ h,
    fun ht => wait_terminal fs s ht⟩

/-- Claim C2 witness: a run ending `"failed"` yields the assertion outcome,
and the load-test variant returns `"canceled"` normally with an
exception-carrying event. -/
theorem c2_failed_only_assert_witness :
    (⟨"failed", 0, []⟩ : JobStatusDocument).status = "failed" ∧
      wait_for_job_completion [] "canceled" = some ⟨"canceled", true⟩ :=
  ⟨(c2_failed_only_assert ⟨"failed", 0, []⟩ ⟨"failed", 0, []⟩ [] [] [] "canceled").2.1
      (by decide),
    (c2_failed_only_assert ⟨"failed", 0, []⟩ ⟨"failed", 0, []⟩ [] [] [] "canceled").2.2
      (by decide)⟩

/-- Claim C3 counterexample: a data link whose href does not start with
`"http"` is never dispatched at all — here a single `s3://` data link leads to
an empty dispatched list, so "exactly once per distinct data link" fails. -/
theorem c3_counterexample :
    show_async ⟨"successful", 100, [⟨"s3://bucket/granule1.nc", some "data"⟩]⟩ [] =
        PollOutcome.ok ⟨"successful", 100, [⟨"s3://bucket/granule1.nc", some "data"⟩]⟩
          [] ∧
      isDataLink ⟨"s3://bucket/granule1.nc", some "data"⟩ = true := by
  decide

/-- Claim C3, amended: for monotonically appended links, each data-link entry
of the final document is dispatched AT MOST as often as it occurs among the
data links, and each entry whose href starts with `"http"` is dispatched
exactly as often as it occurs (so distinct http data links are dispatched
exactly once, non-http data links zero times, and nothing twice). -/
theorem c3_no_duplicate_dispatch (init f : JobStatusDocument)
    (fetches : List JobStatusDocument) (h : String)
    (hc : linksChain init.links fetches)
    (hf : (show_async init fetches).finalDoc = some f) :
    (show_async init fetches).dispatched.count h ≤ (get_data_urls f.links).count h ∧
      (isHttpUrl h = true →
        (show_async init fetches).dispatched.count h =
          (get_data_urls f.links).count h) := by
  have hd := show_async_dispatch_eq init f fetches hc hf
  rw [hd]
  constructor
  · exact (List.filter_sublist _).count_le h
  · intro hh
    rw [List.count_filter]
    simp [hh]

/-- Claim C3 witness: an http data link appearing once is dispatched exactly
once across the poll. -/
theorem c3_no_duplicate_dispatch_witness :
    (show_async ⟨"running", 0, []⟩
        [⟨"successful", 100, [⟨"http://x/a", some "data"⟩]⟩]).dispatched.count
        "http://x/a" =
      (get_data_urls [⟨"http://x/a", some "data"⟩]).count "http://x/a" :=
  (c3_no_duplicate_dispatch ⟨"running", 0, []⟩
    ⟨"successful", 100, [⟨"http://x/a", some "data"⟩]⟩
    [⟨"successful", 100, [⟨"http://x/a", some "data"⟩]⟩] "http://x/a"
    ⟨List.nil_prefix, trivial⟩ (by decide)).2 (by decide)

/-- Claim C4: under monotonic appending, the dispatched hrefs are exactly the
http data hrefs of the final document in array order, and in particular they
form a sublist of the final `links` array's hrefs — dispatch order preserves
the relative order of appearance. -/
theorem c4_order_preserved (init f : JobStatusDocument)
    (fetches : List JobStatusDocument) (hc : linksChain init.links fetches)
    (hf : (show_async init fetches).finalDoc = some f) :
    (show_async init fetches).dispatched =
        ((f.links.filter isDataLink).map LinkEntry.href).filter isHttpUrl ∧
      List.Sublist (show_async init fetches).dispatched
        (f.links.map LinkEntry.href) := by
  have hd := show_async_dispatch_eq init f fetches hc hf
  refine ⟨hd, ?_⟩
  rw [hd]
  exact (List.filter_sublist _).trans ((List.filter_sublist _).map LinkEntry.href)

/-- Claim C4 witness: a concrete interleaved run dispatches in array order. -/
theorem c4_order_preserved_witness :
    (show_async ⟨"running", 0, [⟨"http://x/a", some "data"⟩]⟩
        [⟨"successful", 100, [⟨"http://x/a", some "data"⟩, ⟨"http://x/b", some "self"⟩,
          ⟨"http://x/c", none⟩]⟩]).dispatched =
      ((([⟨"http://x/a", some "data"⟩, ⟨"http://x/b", some "self"⟩,
          ⟨"http://x/c", none⟩] : List LinkEntry).filter isDataLink).map
        LinkEntry.href).filter isHttpUrl :=
  (c4_order_preserved ⟨"running", 0, [⟨"http://x/a", some "data"⟩]⟩
    ⟨"successful", 100, [⟨"http://x/a", some "data"⟩, ⟨"http://x/b", some "self"⟩,
      ⟨"http://x/c", none⟩]⟩
    [⟨"successful", 100, [⟨"http://x/a", some "data"⟩, ⟨"http://x/b", some "self"⟩,
      ⟨"http://x/c", none⟩]⟩]
    ⟨⟨[⟨"http://x/b", some "self"⟩, ⟨"http://x/c", none⟩], rfl⟩, trivial⟩
    (by decide)).1

/-- Claim C5: when the re-fetched document has the same `progress` and the
same `status` as the previous one, the iteration performs no link extraction
and no dispatch: the step keeps the old count and dispatches nothing, the
loop iteration is a pure no-op apart from replacing the stored body, and the
same holds for the condensed variant's step. -/
theorem c5_noop_when_unchanged (st : LoopState) (d : JobStatusDocument)
    (rest : List JobStatusDocument) (sr : Bool)
    (ht : ¬ isTerminal st.body.status = true)
    (hp : st.body.progress = d.progress) (hs : st.body.status = d.status) :
    show_async_step st d = (⟨d, st.count⟩, []) ∧
      show_async_loop (d :: rest) st = show_async_loop rest ⟨d, st.count⟩ ∧
      show_async_condensed_step sr st d = (⟨d, st.count⟩, []) := by
  exact ⟨show_async_step_unchanged st d hp hs,
    show_async_loop_cons_unchanged st d rest ht hp hs,
    show_async_condensed_step_unchanged sr st d hp hs⟩

/-- Claim C5 witness: identical progress and status suppress extraction even
though the links array gained a new data link. -/
theorem c5_noop_when_unchanged_witness :
    show_async_step ⟨⟨"running", 10, []⟩, 0⟩
        ⟨"running", 10, [⟨"http://x/a", some "data"⟩]⟩ =
      (⟨⟨"running", 10, [⟨"http://x/a", some "data"⟩]⟩, 0⟩, []) :=
  (c5_noop_when_unchanged ⟨⟨"running", 10, []⟩, 0⟩
    ⟨"running", 10, [⟨"http://x/a", some "data"⟩]⟩ [] true (by decide) rfl rfl).1

/-- Claim C6: when the initial document is already `"successful"`, `show_async`
dispatches that document's http data links and returns the initial document
via the normal path no matter what the fetch stream would have provided (the
loop body never runs, so zero additional status fetches happen); likewise
`wait_for_job_completion` returns `"successful"` at once for every stream. -/
theorem c6_terminal_detection (init : JobStatusDocument)
    (fetches : List JobStatusDocument) (fs : List (Option String))
    (hs : init.status = "successful") :
    show_async init fetches =
        PollOutcome.ok init ((get_data_urls init.links).filter isHttpUrl) ∧
      wait_for_job_completion fs "successful" = some ⟨"successful", false⟩ := by
  constructor
  · unfold show_async
    have ht : isTerminal init.status = true := by rw [hs]; decide
    have hloop : show_async_loop fetches ⟨init, (show_response init 0).2⟩ =
        exitOutcome init := by
      cases fetches with
      | nil => rw [show_async_loop_nil, if_pos ht]
      | cons d rest => rw [show_async_loop_cons, if_pos ht]
    rw [hloop]
    unfold exitOutcome
    rw [if_neg (by rw [hs]; decide)]
    simp [PollOutcome.withDisp, show_response, List.drop_zero]
  · rw [wait_terminal fs "successful" (by decide)]
    rfl

/-- Claim C6 witness: a successful initial document returns immediately with
its own links dispatched, ignoring the provided fetch stream. -/
theorem c6_terminal_detection_witness :
    show_async ⟨"successful", 100, [⟨"http://x/a", none⟩]⟩ [⟨"successful", 100, []⟩] =
      PollOutcome.ok ⟨"successful", 100, [⟨"http://x/a", none⟩]⟩ ["http://x/a"] :=
  (c6_terminal_detection ⟨"successful", 100, [⟨"http://x/a", none⟩]⟩
    [⟨"successful", 100, []⟩] [] rfl).1

/-- Claim C7: the saved link count never exceeds the number of links of the
most recently fetched document.  Established after the initial extraction
(`show_response` with count 0) and preserved by every loop iteration of both
variants, given the append-only links assumption; the stronger inequality
against the filtered data-link count is the carried invariant. -/
theorem c7_count_invariant (init : JobStatusDocument) (st : LoopState)
    (d : JobStatusDocument) (sr : Bool)
    (hinv : st.count ≤ (get_data_urls st.body.links).length)
    (hpre : st.body.links <+: d.links) :
    ((show_response init 0).2 ≤ (get_data_urls init.links).length ∧
        (show_response init 0).2 ≤ init.links.length) ∧
      ((show_async_step st d).1.count ≤
          (get_data_urls (show_async_step st d).1.body.links).length ∧
        (show_async_step st d).1.count ≤ (show_async_step st d).1.body.links.length) ∧
      ((show_async_condensed_step sr st d).1.count ≤
          (get_data_urls (show_async_condensed_step sr st d).1.body.links).length ∧
        (show_async_condensed_step sr st d).1.count ≤
          (show_async_condensed_step sr st d).1.body.links.length) := by
  refine ⟨⟨Nat.le_refl _, get_data_urls_length_le _⟩, ?_, ?_⟩
  · by_cases hch : st.body.progress ≠ d.progress ∨ st.body.status ≠ d.status
    · rw [show_async_step_changed st d hch]
      exact ⟨Nat.le_refl _, get_data_urls_length_le _⟩
    · push_neg at hch
      rw [show_async_step_unchanged st d hch.1 hch.2]
      have h2 := count_inv_preserved st.count _ _ hinv hpre
      exact ⟨h2, le_trans h2 (get_data_urls_length_le _)⟩
  · by_cases hch : st.body.progress ≠ d.progress ∨ st.body.status ≠ d.status
    · cases sr with
      | true =>
        rw [show_async_condensed_step_changed_shown st d hch]
        exact ⟨Nat.le_refl _, get_data_urls_length_le _⟩
      | false =>
        rw [show_async_condensed_step_hidden st d]
        have h2 := count_inv_preserved st.count _ _ hinv hpre
        exact ⟨h2, le_trans h2 (get_data_urls_length_le _)⟩
    · push_neg at hch
      rw [show_async_condensed_step_unchanged sr st d hch.1 hch.2]
      have h2 := count_inv_preserved st.count _ _ hinv hpre
      exact ⟨h2, le_trans h2 (get_data_urls_length_le _)⟩

/-- Claim C7 witness: the invariant holds across a concrete appending step. -/
theorem c7_count_invariant_witness :
    (show_async_step ⟨⟨"running", 0, [⟨"http://x/a", some "data"⟩]⟩, 1⟩
        ⟨"running", 50, [⟨"http://x/a", some "data"⟩, ⟨"http://x/b", some "self"⟩]⟩).1.count ≤
      (show_async_step ⟨⟨"running", 0, [⟨"http://x/a", some "data"⟩]⟩, 1⟩
        ⟨"running", 50, [⟨"http://x/a", some "data"⟩,
          ⟨"http://x/b", some "self"⟩]⟩).1.body.links.length :=
  (c7_count_invariant ⟨"running", 0, []⟩
    ⟨⟨"running", 0, [⟨"http://x/a", some "data"⟩]⟩, 1⟩
    ⟨"running", 50, [⟨"http://x/a", some "data"⟩, ⟨"http://x/b", some "self"⟩]⟩ true
    (by decide) ⟨[⟨"http://x/b", some "self"⟩], rfl⟩).2.1.2

/-- Claim C8 (code bug): a transient fetch failure aborts the whole poll of
`wait_for_job_completion` instead of being retried.  The `except` handler logs
`response.body`, an attribute `requests.Response` does not have, so the
handler raises `AttributeError`; the outer handler catches it and the function
returns the still-non-terminal status — here a failed fetch followed by an
available `"successful"` document still returns `"running"` with an
exception-carrying event, never consuming the second fetch. -/
theorem c8_transient_error_aborts :
    wait_for_job_completion [none, some "successful"] "running" =
        some ⟨"running", true⟩ ∧
      isTerminal "running" = false := by
  decide

/-- Claim C9: only data links whose href starts with `"http"` are dispatched
(in both `show_response` and `show_response_condensed`); a non-http data link
still counts toward the saved link count, so it is skipped forever, and every
data link is dispatched at most as often as it occurs — at most once for
distinct entries. -/
theorem c9_http_only_dispatch (doc : JobStatusDocument) (c : Nat)
    (init f : JobStatusDocument) (fetches : List JobStatusDocument) (h : String)
    (hc : linksChain init.links fetches)
    (hf : (show_async init fetches).finalDoc = some f)
    (hnh : isHttpUrl h = false) :
    (∀ u ∈ (show_response doc c).1, isHttpUrl u = true) ∧
      (show_response doc c).2 = (get_data_urls doc.links).length ∧
      (∀ u ∈ (show_response_condensed doc c).1, isHttpUrl u = true) ∧
      (show_response_condensed doc c).2 = (get_data_urls doc.links).length ∧
      h ∉ (show_async init fetches).dispatched ∧
      (∀ u, ((show_async init fetches).dispatched).count u ≤
        (get_data_urls f.links).count u) := by
  have hd := show_async_dispatch_eq init f fetches hc hf
  refine ⟨fun u hu => (List.mem_filter.mp hu).2, rfl,
    fun u hu => (List.mem_filter.mp hu).2, rfl, ?_, ?_⟩
  · rw [hd]
    intro hmem
    have hu := (List.mem_filter.mp hmem).2
    rw [hnh] at hu
    exact Bool.noConfusion hu
  · intro u
    rw [hd]
    exact (List.filter_sublist _).count_le u

/-- Claim C9 witness: an `s3://` data link is never dispatched across a
concrete poll that ends successfully. -/
theorem c9_http_only_dispatch_witness :
    "s3://bucket/granule1.nc" ∉
      (show_async ⟨"running", 0, []⟩
        [⟨"successful", 100, [⟨"s3://bucket/granule1.nc", some "data"⟩,
          ⟨"http://x/b", none⟩]⟩]).dispatched :=
  (c9_http_only_dispatch ⟨"running", 0, []⟩ 0 ⟨"running", 0, []⟩
    ⟨"successful", 100, [⟨"s3://bucket/granule1.nc", some "data"⟩, ⟨"http://x/b", none⟩]⟩
    [⟨"successful", 100, [⟨"s3://bucket/granule1.nc", some "data"⟩, ⟨"http://x/b", none⟩]⟩]
    "s3://bucket/granule1.nc" ⟨List.nil_prefix, trivial⟩ (by decide)
    (by decide)).2.2.2.2.1

/-- Claim C10: `wait_for_job_completion` never propagates an exception to its
caller: every exception the try-block body raises (the assert on
`"failed"`/`"canceled"`, or the handler's own error on a transient fetch
failure) is caught, reported through the fired event, and the current status
string is returned normally; a terminal returned status carries an
exception-marked event exactly when it is `"failed"` or `"canceled"`. -/
theorem c10_returns_normally (fetches : List (Option String)) (s st : String)
    (r : WaitResult) :
    (waitBody fetches s = some (TryOutcome.raised st) →
        wait_for_job_completion fetches s = some ⟨st, true⟩) ∧
      (wait_for_job_completion fetches s = some r →
        isTerminal r.returnedStatus = true →
        r.eventException =
          (["failed", "canceled"] : List String).contains r.returnedStatus) := by
  constructor
  · intro h
    unfold wait_for_job_completion
    rw [h]
  · intro h hterm
    unfold wait_for_job_completion at h
    cases hw : waitBody fetches s with
    | none =>
      rw [hw] at h
      exact Option.noConfusion h
    | some o =>
      rw [hw] at h
      cases o with
      | normal st2 =>
        injection h with h1
        subst h1
        have hn := waitBody_normal_inv fetches s st2 hw
        exact hn.2.symm
      | raised st2 =>
        injection h with h1
        subst h1
        have hr := waitBody_raised_inv fetches s st2 hw
        rcases hr with ⟨ht2, hc2⟩ | hnt
        · exact hc2.symm
        · rw [hnt] at hterm
          exact Bool.noConfusion hterm

/-- Claim C10 witness: a job ending `"failed"` makes the function return the
status string `"failed"` normally, with the event carrying the exception. -/
theorem c10_returns_normally_witness :
    wait_for_job_completion [some "failed"] "running" = some ⟨"failed", true⟩ :=
  (c10_returns_normally [some "failed"] "running" "failed" ⟨"failed", true⟩).1
    (by decide)

end Harmony
